import Mathlib

/-!
Shallow embedding of the node-ina226 driver (src/src/ina226.ts).

The driver talks to an INA226 power monitor over an I2C bus.  Register
contents travel as 2-byte big-endian block transfers.  The driver keeps two
mutable fields (last read bus voltage and last read shunt voltage) and offers
pure calculation helpers for current and power.

JavaScript numeric bitwise operators work on 32-bit two-complement views of
numbers; we model them explicitly (toInt32 / toUint32 / jsAnd / jsXor /
jsShr).  JavaScript numbers that hold exact decimal constants and the
products appearing here are modelled by the rationals.
-/

namespace INA226Model

/-- Address of the Configuration Register. -/
def CONFIGURATION_REGISTER : Nat := 0x00

/-- Address of the Shunt Voltage Register. -/
def SHUNT_VOLTAGE_REGISTER : Nat := 0x01

/-- Address of the Bus Voltage Register. -/
def BUS_VOLTAGE_REGISTER : Nat := 0x02

/-- Address of the Power Register. -/
def POWER_REGISTER : Nat := 0x03

/-- Address of the Current Register. -/
def CURRENT_REGISTER : Nat := 0x04

/-- Address of the Calibration Register. -/
def CALIBRATION_REGISTER : Nat := 0x05

/-- Address of the Mask/Enable Register. -/
def MASK_ENABLE_REGISTER : Nat := 0x06

/-- Address of the Alert Limit Register. -/
def ALERT_LIMIT_REGISTER : Nat := 0x07

/-- Address of the Manufactor ID Register. -/
def MANUFACTOR_ID_REGISTER : Nat := 0xFE

/-- Address of the Die ID Register. -/
def DIE_ID_REGISTER : Nat := 0xFF

/-- Shunt voltage LSB scale: 2.5 microvolts per raw count. -/
def SHUNT_VOLTAGE_LSB : ℚ := 0.0000025

/-- Bus voltage LSB scale: 1.25 millivolts per raw count. -/
def BUS_VOLTAGE_LSB : ℚ := 0.00125

/-- The unsigned 32-bit view of a JavaScript integer (ToUint32). -/
def toUint32 (v : Int) : Nat := (v % 4294967296).toNat

/-- The signed 32-bit view of a JavaScript integer (ToInt32). -/
def toInt32 (v : Int) : Int := (v + 2147483648) % 4294967296 - 2147483648

/-- JavaScript bitwise AND on integers: both operands are reduced to their
32-bit pattern, the patterns are ANDed, and the result is read as int32. -/
def jsAnd (a b : Int) : Int := toInt32 ((toUint32 a &&& toUint32 b : Nat) : Int)

/-- JavaScript bitwise XOR on integers, analogous to jsAnd. -/
def jsXor (a b : Int) : Int := toInt32 ((toUint32 a ^^^ toUint32 b : Nat) : Int)

/-- JavaScript arithmetic (sign-propagating) right shift on integers:
the left operand is reduced to int32, the shift count to its low 5 bits,
and the shift itself is a floor division by a power of two. -/
def jsShr (a b : Int) : Int := Int.fdiv (toInt32 a) (2 ^ (toUint32 b % 32))

/-- The 2-byte big-endian buffer built by writeRegister:
buf[0] = (value >> 8) & 0xff and buf[1] = value & 0xff. -/
def writeRegisterBytes (value : Int) : Nat × Nat :=
  ((jsAnd (jsShr value 8) 0xff).toNat, (jsAnd value 0xff).toNat)

/-- The raw register value reconstructed by readRegister from the two bytes
delivered by the block read: buffer[0] * 256 + buf[1].  The transport fills
the very buffer the driver hands over and passes the same object to the
callback, so buffer[0] and buf[1] read the first and second received byte. -/
def readRegisterValue (b0 b1 : Nat) : Nat := b0 * 256 + b1

/-- The sign correction applied by readShuntVoltage to a raw register value:
if the MSB (mask 0x8000) is set, subtract 1, invert the bits with 0xFFFF and
negate; otherwise keep the value. -/
def shuntRawToSigned (raw : Int) : Int :=
  if jsAnd raw 0x8000 ≠ 0 then -(jsXor (raw - 1) 0xFFFF) else raw

/-- The bus voltage in volts resolved from a raw register value:
the raw value is taken unsigned and scaled by BUS_VOLTAGE_LSB. -/
def busVoltageOf (raw : Nat) : ℚ := (raw : ℚ) * BUS_VOLTAGE_LSB

/-- The shunt voltage in volts resolved from a raw register value:
the raw value is sign-corrected and scaled by SHUNT_VOLTAGE_LSB. -/
def shuntVoltageOf (raw : Nat) : ℚ :=
  ((shuntRawToSigned (raw : Int) : Int) : ℚ) * SHUNT_VOLTAGE_LSB

/-- The per-instance state of the driver class INA226: the device address,
the shunt resistance and the two mutable last-read voltage fields.  The i2c
bus handle is external; bus traffic is modelled by BusReply inputs below. -/
structure INA226 where
  _address : Nat
  _rShunt : ℚ
  _busVoltage : ℚ
  _shuntVoltage : ℚ
deriving DecidableEq

/-- The constructor: both last-read voltage fields start at 0. -/
def construct (address : Nat) (rShunt : ℚ) : INA226 :=
  ⟨address, rShunt, 0, 0⟩

/-- The public operations of the driver. -/
inductive Op
  | writeRegister (register : Nat) (value : Int)
  | readRegister (register : Nat)
  | readBusVoltage
  | readShuntVoltage
  | calcCurrent (shuntVoltage : Option ℚ)
  | calcPower (busVoltage : Option ℚ) (shuntVoltage : Option ℚ)
deriving DecidableEq

/-- The completion the bus transport delivers for one transaction: either
success (carrying the two bytes read; ignored for writes) or an error of
the transport error type ε. -/
inductive BusReply (ε : Type)
  | ok (b0 b1 : Nat)
  | fail (e : ε)
deriving DecidableEq

/-- A single I2C transaction as issued to the bus transport. -/
inductive BusCmd
  | writeI2cBlock (addr register length : Nat) (bytes : List Nat)
  | readI2cBlock (addr register length : Nat)
deriving DecidableEq

/-- The value an operation resolves with: void, a raw register value, or a
number (volts, amperes or watts). -/
inductive OutVal
  | unit
  | raw (value : Nat)
  | num (q : ℚ)
deriving DecidableEq

/-- Whether an operation performs bus I/O (register writes and all reads)
as opposed to the pure calculation helpers. -/
def Op.isBusOp : Op → Bool
  | .writeRegister _ _ => true
  | .readRegister _ => true
  | .readBusVoltage => true
  | .readShuntVoltage => true
  | .calcCurrent _ => false
  | .calcPower _ _ => false

/-- The single bus transaction an operation issues, if any.  A register
write sends exactly the 2-byte big-endian payload; every read is a 2-byte
block read; the calculation helpers issue no transaction at all. -/
def busCommand (s : INA226) : Op → Option BusCmd
  | .writeRegister register value =>
      some (.writeI2cBlock s._address register 2
        [(writeRegisterBytes value).1, (writeRegisterBytes value).2])
  | .readRegister register => some (.readI2cBlock s._address register 2)
  | .readBusVoltage => some (.readI2cBlock s._address BUS_VOLTAGE_REGISTER 2)
  | .readShuntVoltage => some (.readI2cBlock s._address SHUNT_VOLTAGE_REGISTER 2)
  | .calcCurrent _ => none
  | .calcPower _ _ => none

/-- calcCurrent: shuntVoltage / rShunt, the argument defaulting to the last
read shunt voltage when omitted. -/
def calcCurrent (s : INA226) (shuntVoltage : Option ℚ) : ℚ :=
  shuntVoltage.getD s._shuntVoltage / s._rShunt

/-- calcPower: busVoltage * shuntVoltage / rShunt, each argument defaulting
independently to the corresponding last-read field when omitted. -/
def calcPower (s : INA226) (busVoltage : Option ℚ) (shuntVoltage : Option ℚ) : ℚ :=
  busVoltage.getD s._busVoltage * shuntVoltage.getD s._shuntVoltage / s._rShunt

/-- One driver operation run against one bus completion: the new instance
state and the settled result (resolution value or propagated rejection). -/
def runOp (s : INA226) : Op → BusReply ε → INA226 × Except ε OutVal
  | .writeRegister _ _, .ok _ _ => (s, .ok .unit)
  | .writeRegister _ _, .fail e => (s, .error e)
  | .readRegister _, .ok b0 b1 => (s, .ok (.raw (readRegisterValue b0 b1)))
  | .readRegister _, .fail e => (s, .error e)
  | .readBusVoltage, .ok b0 b1 =>
      (⟨s._address, s._rShunt, busVoltageOf (readRegisterValue b0 b1), s._shuntVoltage⟩,
        .ok (.num (busVoltageOf (readRegisterValue b0 b1))))
  | .readBusVoltage, .fail e => (s, .error e)
  | .readShuntVoltage, .ok b0 b1 =>
      (⟨s._address, s._rShunt, s._busVoltage, shuntVoltageOf (readRegisterValue b0 b1)⟩,
        .ok (.num (shuntVoltageOf (readRegisterValue b0 b1))))
  | .readShuntVoltage, .fail e => (s, .error e)
  | .calcCurrent sv, _ => (s, .ok (.num (calcCurrent s sv)))
  | .calcPower bv sv, _ => (s, .ok (.num (calcPower s bv sv)))

/-- A sequence of operations run against a sequence of bus completions,
returning the final state and each operation paired with its result. -/
def runTrace (s : INA226) : List (Op × BusReply ε) → INA226 × List (Op × Except ε OutVal)
  | [] => (s, [])
  | (op, io) :: rest =>
      ((runTrace (runOp s op io).1 rest).1,
        (op, (runOp s op io).2) :: (runTrace (runOp s op io).1 rest).2)

/-- The value returned by the most recent successful readBusVoltage in an
annotated result list, or the default d if there is none. -/
def lastBusReturn (d : ℚ) : List (Op × Except ε OutVal) → ℚ
  | [] => d
  | (Op.readBusVoltage, Except.ok (OutVal.num v)) :: rest => lastBusReturn v rest
  | _ :: rest => lastBusReturn d rest

/-- The value returned by the most recent successful readShuntVoltage in an
annotated result list, or the default d if there is none. -/
def lastShuntReturn (d : ℚ) : List (Op × Except ε OutVal) → ℚ
  | [] => d
  | (Op.readShuntVoltage, Except.ok (OutVal.num v)) :: rest => lastShuntReturn v rest
  | _ :: rest => lastShuntReturn d rest

/-! ### Helper lemmas about the JavaScript 32-bit operations -/

/-- ToUint32 is the identity on natural numbers below 2^32. -/
theorem toUint32_ofNat (n : Nat) (h : n < 4294967296) : toUint32 ((n : Nat) : Int) = n := by
  simp only [toUint32]
  omega

/-- ANDing with 0xff extracts the value modulo 256. -/
theorem jsAnd_255 (w : Int) : jsAnd w 255 = w % 256 := by
  have h255 : toUint32 255 = 255 := by
    simp only [toUint32]; omega
  have hand : toUint32 w &&& 255 = toUint32 w % 256 := by
    have := Nat.and_pow_two_sub_one_eq_mod (toUint32 w) 8
    norm_num at this
    exact this
  simp only [jsAnd, h255, hand]
  simp only [toInt32, toUint32]
  omega

/-- A 16-bit value at or above 2 ^ 15 has its most significant bit set. -/
theorem and_32768_of_ge (n : Nat) (hn : n < 65536) (hc : 32768 ≤ n) : n &&& 32768 = 32768 := by
  have h := Nat.and_two_pow n 15
  have ht : n.testBit 15 = true := by
    rw [Nat.testBit_to_div_mod]
    simp only [decide_eq_true_eq]
    omega
  rw [ht] at h
  simpa using h

/-- A value below 2 ^ 15 has its most significant 16-bit position clear. -/
theorem and_32768_of_lt (n : Nat) (hc : n < 32768) : n &&& 32768 = 0 := by
  have h := Nat.and_two_pow n 15
  have ht : n.testBit 15 = false := by
    rw [Nat.testBit_to_div_mod]
    simp only [decide_eq_false_iff_not]
    omega
  rw [ht] at h
  simpa using h

/-- ANDing a 16-bit value with the mask 0x8000 tests its most significant
bit. -/
theorem jsAnd_32768 (n : Nat) (h : n < 65536) :
    jsAnd ((n : Nat) : Int) 32768 = if 32768 ≤ n then 32768 else 0 := by
  have hn : toUint32 ((n : Nat) : Int) = n := toUint32_ofNat n (by omega)
  have h15 : toUint32 32768 = 32768 := by
    simp only [toUint32]; omega
  by_cases hc : 32768 ≤ n
  · simp only [jsAnd, hn, h15, and_32768_of_ge n h hc, if_pos hc]
    simp only [toInt32]
    omega
  · simp only [jsAnd, hn, h15, and_32768_of_lt n (by omega), if_neg hc]
    simp only [toInt32]
    omega

/-- XOR with an all-ones mask is subtraction from the mask: the bitwise
complement of a value below 2 ^ w within width w. -/
theorem xor_two_pow_sub_one (w n : Nat) (h : n < 2 ^ w) :
    n ^^^ (2 ^ w - 1) = 2 ^ w - 1 - n := by
  induction w generalizing n with
  | zero =>
    have hn : n = 0 := by omega
    subst hn
    simp
  | succ w ih =>
    have hpow : 2 ^ (w + 1) = 2 * 2 ^ w := by
      rw [Nat.pow_succ]; ring
    have hdiv : (n ^^^ (2 ^ (w + 1) - 1)) / 2 = 2 ^ w - 1 - n / 2 := by
      rw [Nat.xor_div_two]
      have h2 : (2 ^ (w + 1) - 1) / 2 = 2 ^ w - 1 := by omega
      rw [h2]
      exact ih (n / 2) (by omega)
    have hmod : ((n ^^^ (2 ^ (w + 1) - 1)) % 2 = 1) ↔
        ¬ (n % 2 = 1 ↔ (2 ^ (w + 1) - 1) % 2 = 1) := Nat.xor_mod_two_eq_one
    have hx := Nat.div_add_mod (n ^^^ (2 ^ (w + 1) - 1)) 2
    have hn2 := Nat.div_add_mod n 2
    omega

/-- XORing a 16-bit value with 0xFFFF inverts its low 16 bits. -/
theorem jsXor_65535 (n : Nat) (h : n < 65536) :
    jsXor ((n : Nat) : Int) 65535 = ((65535 - n : Nat) : Int) := by
  have hn : toUint32 ((n : Nat) : Int) = n := toUint32_ofNat n (by omega)
  have h2 : toUint32 65535 = 65535 := by
    simp only [toUint32]; omega
  have hx : n ^^^ 65535 = 65535 - n := by
    have := xor_two_pow_sub_one 16 n (by norm_num; omega)
    norm_num at this
    exact this
  simp only [jsXor, hn, h2, hx, toInt32]
  omega

/-- The arithmetic right shift by 8 is floor division of the int32 view by
256, which coincides with Euclidean division since 256 is positive. -/
theorem jsShr_8 (v : Int) : jsShr v 8 = toInt32 v / 256 := by
  have h8 : toUint32 8 % 32 = 8 := by
    simp only [toUint32]; omega
  simp only [jsShr, h8]
  norm_num
  exact Int.fdiv_eq_ediv _ (by norm_num)

/-- The serialized register payload is exactly the big-endian byte pair of
the value reduced modulo 2 ^ 16. -/
theorem writeRegisterBytes_eq_mod (v : Int) :
    writeRegisterBytes v = ((v % 65536).toNat / 256, (v % 65536).toNat % 256) := by
  simp only [writeRegisterBytes, jsShr_8, jsAnd_255, Prod.mk.injEq]
  constructor
  · simp only [toInt32]
    omega
  · omega

/-- The sign correction of readShuntVoltage decodes a 16-bit raw value as a
two-complement signed integer. -/
theorem shuntRawToSigned_eq (n : Nat) (h : n < 65536) :
    shuntRawToSigned ((n : Nat) : Int) = if 32768 ≤ n then (n : Int) - 65536 else (n : Int) := by
  rw [shuntRawToSigned]
  rw [jsAnd_32768 n h]
  by_cases hc : 32768 ≤ n
  · simp only [if_pos hc]
    rw [if_pos (show (32768 : Int) ≠ 0 by norm_num)]
    have h1 : ((n : Nat) : Int) - 1 = (((n - 1 : Nat) : Nat) : Int) := by omega
    rw [h1, jsXor_65535 (n - 1) (by omega)]
    omega
  · simp only [if_neg hc]
    rw [if_neg (show ¬ ((0 : Int) ≠ 0) by norm_num)]

/-! ### Trace invariants for the cached voltage fields -/

/-- The bus voltage field after a trace equals the value returned by the
most recent successful readBusVoltage, the starting field value otherwise. -/
theorem runTrace_busVoltage {ε : Type} (tr : List (Op × BusReply ε)) :
    ∀ s : INA226, (runTrace s tr).1._busVoltage = lastBusReturn s._busVoltage (runTrace s tr).2 := by
  induction tr with
  | nil => intro s; simp [runTrace, lastBusReturn]
  | cons hd rest ih =>
    intro s
    obtain ⟨op, io⟩ := hd
    cases op <;> cases io <;>
      simp only [runTrace, runOp, lastBusReturn] <;>
      exact ih _

/-- The shunt voltage field after a trace equals the value returned by the
most recent successful readShuntVoltage, the starting field value otherwise. -/
theorem runTrace_shuntVoltage {ε : Type} (tr : List (Op × BusReply ε)) :
    ∀ s : INA226, (runTrace s tr).1._shuntVoltage = lastShuntReturn s._shuntVoltage (runTrace s tr).2 := by
  induction tr with
  | nil => intro s; simp [runTrace, lastShuntReturn]
  | cons hd rest ih =>
    intro s
    obtain ⟨op, io⟩ := hd
    cases op <;> cases io <;>
      simp only [runTrace, runOp, lastShuntReturn] <;>
      exact ih _

/-! ### The claims -/

/-- Claim C1: readShuntVoltage decodes the raw 16-bit register value as a
two-complement signed integer: when the mask 0x8000 hits (exactly for raw
values at or above 32768) the decoded value is raw - 65536, otherwise raw
itself; the resolved voltage is the signed value scaled by 0.0000025, with
raw 0xFFFF resolving to -0.0000025 V and raw 0x8000 to -0.08192 V. -/
theorem readShuntVoltage_twos_complement_decode (raw : Nat) (h : raw < 65536) :
    ((raw &&& 0x8000 ≠ 0) ↔ 32768 ≤ raw)
    ∧ shuntRawToSigned ((raw : Nat) : Int)
        = (if raw &&& 0x8000 ≠ 0 then ((raw : Nat) : Int) - 65536 else ((raw : Nat) : Int))
    ∧ shuntVoltageOf raw = ((shuntRawToSigned ((raw : Nat) : Int) : Int) : ℚ) * 0.0000025
    ∧ shuntVoltageOf 0xFFFF = -0.0000025
    ∧ shuntVoltageOf 0x8000 = -0.08192 := by
  have hiff : (raw &&& 0x8000 ≠ 0) ↔ 32768 ≤ raw := by
    by_cases hc : 32768 ≤ raw
    · rw [and_32768_of_ge raw h hc]
      simp [hc]
    · rw [and_32768_of_lt raw (by omega)]
      simp [hc]
  refine ⟨hiff, ?_, rfl, ?_, ?_⟩
  · rw [shuntRawToSigned_eq raw h]
    by_cases hc : 32768 ≤ raw
    · rw [if_pos hc, if_pos (hiff.mpr hc)]
    · rw [if_neg hc, if_neg (fun hne => hc (hiff.mp hne))]
  · rw [shuntVoltageOf, shuntRawToSigned_eq 65535 (by norm_num)]
    norm_num [SHUNT_VOLTAGE_LSB]
  · rw [shuntVoltageOf, shuntRawToSigned_eq 32768 (by norm_num)]
    norm_num [SHUNT_VOLTAGE_LSB]

/-- Witness for C1 at the concrete raw value 0xFFFF. -/
theorem readShuntVoltage_twos_complement_decode_witness :
    shuntVoltageOf 0xFFFF = -0.0000025 :=
  (readShuntVoltage_twos_complement_decode 0xFFFF (by decide)).2.2.2.1

/-- Claim C2: readRegister resolves with the value rebuilt from the 2-byte
buffer delivered by the block read, first byte as most significant and
second byte as least significant; the instance state is untouched, and the
bytes 0xAB, 0xCD rebuild 0xABCD, that is 43981. -/
theorem readRegister_big_endian_reconstruction (ε : Type) (s : INA226)
    (register b0 b1 : Nat) (h0 : b0 < 256) (h1 : b1 < 256) :
    (runOp s (Op.readRegister register) (BusReply.ok b0 b1 : BusReply ε)).2
        = Except.ok (OutVal.raw (readRegisterValue b0 b1))
    ∧ (runOp s (Op.readRegister register) (BusReply.ok b0 b1 : BusReply ε)).1 = s
    ∧ readRegisterValue b0 b1 = b0 * 256 + b1
    ∧ readRegisterValue b0 b1 / 256 = b0
    ∧ readRegisterValue b0 b1 % 256 = b1
    ∧ readRegisterValue b0 b1 < 65536
    ∧ readRegisterValue 0xAB 0xCD = 43981 := by
  refine ⟨rfl, rfl, rfl, ?_, ?_, ?_, by decide⟩ <;>
    simp only [readRegisterValue] <;> omega

/-- Witness for C2 at the concrete bytes 0xAB and 0xCD. -/
theorem readRegister_big_endian_reconstruction_witness :
    readRegisterValue 0xAB 0xCD / 256 = 0xAB ∧ readRegisterValue 0xAB 0xCD % 256 = 0xCD :=
  ⟨(readRegister_big_endian_reconstruction Nat (construct 0x40 (1/10)) 0 0xAB 0xCD
      (by decide) (by decide)).2.2.2.1,
   (readRegister_big_endian_reconstruction Nat (construct 0x40 (1/10)) 0 0xAB 0xCD
      (by decide) (by decide)).2.2.2.2.1⟩

/-- Claim C3: writeRegister issues exactly one 2-byte block write at the
given register, most significant byte first; the payload is the value
reduced modulo 2 ^ 16 (out-of-range values are truncated by the masking,
not rejected), and value 0x1234 serializes to the payload 0x12, 0x34. -/
theorem writeRegister_big_endian_serialization (s : INA226) (register : Nat) (v : Int) :
    busCommand s (Op.writeRegister register v)
      = some (BusCmd.writeI2cBlock s._address register 2
          [(v % 65536).toNat / 256, (v % 65536).toNat % 256])
    ∧ writeRegisterBytes v = ((jsAnd (jsShr v 8) 0xff).toNat, (jsAnd v 0xff).toNat)
    ∧ writeRegisterBytes v = ((v % 65536).toNat / 256, (v % 65536).toNat % 256)
    ∧ writeRegisterBytes 0x1234 = (0x12, 0x34) := by
  refine ⟨?_, rfl, writeRegisterBytes_eq_mod v, by decide⟩
  simp [busCommand, writeRegisterBytes_eq_mod v]

/-- Claim C4: over every sequence of driver operations, the two cached
voltage fields start at 0 at construction and afterwards always equal the
value most recently returned by a successful corresponding voltage read;
no other operation ever mutates them. -/
theorem voltage_fields_track_last_successful_reads (ε : Type) (address : Nat)
    (rShunt : ℚ) (tr : List (Op × BusReply ε)) :
    (construct address rShunt)._busVoltage = 0
    ∧ (construct address rShunt)._shuntVoltage = 0
    ∧ (runTrace (construct address rShunt) tr).1._busVoltage
        = lastBusReturn 0 (runTrace (construct address rShunt) tr).2
    ∧ (runTrace (construct address rShunt) tr).1._shuntVoltage
        = lastShuntReturn 0 (runTrace (construct address rShunt) tr).2 :=
  ⟨rfl, rfl, runTrace_busVoltage tr (construct address rShunt),
    runTrace_shuntVoltage tr (construct address rShunt)⟩

/-- Claim C5: when the bus transport reports an error, every register or
voltage operation rejects with that exact error value and leaves the whole
instance state, in particular both cached voltage fields, unchanged. -/
theorem bus_errors_propagate_unchanged (ε : Type) (s : INA226) (op : Op) (e : ε)
    (h : op.isBusOp = true) :
    runOp s op (BusReply.fail e) = (s, Except.error e) := by
  cases op <;> first
    | rfl
    | simp [Op.isBusOp] at h

/-- Witness for C5: a failing readBusVoltage on a concrete instance. -/
theorem bus_errors_propagate_unchanged_witness :
    runOp (construct 0x40 (1/10)) Op.readBusVoltage (BusReply.fail (3 : Nat))
      = (construct 0x40 (1/10), Except.error 3) :=
  bus_errors_propagate_unchanged Nat (construct 0x40 (1/10)) Op.readBusVoltage 3 rfl

/-- Claim C6: readBusVoltage resolves with the raw register value scaled
by 0.00125 with no sign correction: the resolved voltage is the unsigned
raw count times the LSB for every raw value, hence never negative, and a
raw value of 1000 resolves to exactly 1.25 V. -/
theorem readBusVoltage_unsigned_scaling (ε : Type) (s : INA226) (b0 b1 : Nat) :
    (runOp s Op.readBusVoltage (BusReply.ok b0 b1 : BusReply ε)).2
        = Except.ok (OutVal.num ((readRegisterValue b0 b1 : ℚ) * 0.00125))
    ∧ (runOp s Op.readBusVoltage (BusReply.ok b0 b1 : BusReply ε)).1._busVoltage
        = (readRegisterValue b0 b1 : ℚ) * 0.00125
    ∧ (∀ raw : Nat, busVoltageOf raw = (raw : ℚ) * 0.00125)
    ∧ (∀ raw : Nat, 0 ≤ busVoltageOf raw)
    ∧ busVoltageOf 1000 = 1.25 := by
  refine ⟨rfl, rfl, fun raw => rfl, fun raw => ?_, ?_⟩
  · exact mul_nonneg (Nat.cast_nonneg raw) (by norm_num [BUS_VOLTAGE_LSB])
  · norm_num [busVoltageOf, BUS_VOLTAGE_LSB]

/-- Claim C7: calcCurrent is pure: it issues no bus transaction, leaves the
state untouched whatever the environment does, and returns shuntVoltage
divided by the shunt resistance, the argument defaulting to the cached
shunt voltage only when omitted. -/
theorem calcCurrent_pure_and_defaulting (ε : Type) (s : INA226) (sv : Option ℚ)
    (io : BusReply ε) :
    runOp s (Op.calcCurrent sv) io = (s, Except.ok (OutVal.num (calcCurrent s sv)))
    ∧ busCommand s (Op.calcCurrent sv) = none
    ∧ calcCurrent s none = s._shuntVoltage / s._rShunt
    ∧ (∀ v : ℚ, calcCurrent s (some v) = v / s._rShunt) := by
  refine ⟨?_, rfl, rfl, fun v => rfl⟩
  cases io <;> rfl

/-- Claim C8: calcPower is pure: it issues no bus transaction, leaves the
state untouched whatever the environment does, and returns busVoltage times
shuntVoltage over the shunt resistance, each argument defaulting
independently to its cached field only when omitted. -/
theorem calcPower_pure_and_defaulting (ε : Type) (s : INA226)
    (bv sv : Option ℚ) (io : BusReply ε) :
    runOp s (Op.calcPower bv sv) io = (s, Except.ok (OutVal.num (calcPower s bv sv)))
    ∧ busCommand s (Op.calcPower bv sv) = none
    ∧ calcPower s none none = s._busVoltage * s._shuntVoltage / s._rShunt
    ∧ (∀ b : ℚ, calcPower s (some b) none = b * s._shuntVoltage / s._rShunt)
    ∧ (∀ v : ℚ, calcPower s none (some v) = s._busVoltage * v / s._rShunt)
    ∧ (∀ b v : ℚ, calcPower s (some b) (some v) = b * v / s._rShunt) := by
  refine ⟨?_, rfl, rfl, fun b => rfl, fun v => rfl, fun b v => rfl⟩
  cases io <;> rfl

/-- Claim C9: for every instance and every pair of explicit voltages, the
power computed by calcPower equals the bus voltage times the current
computed by calcCurrent. -/
theorem calcPower_eq_busVoltage_mul_calcCurrent (s : INA226) (b v : ℚ) :
    calcPower s (some b) (some v) = b * calcCurrent s (some v) := by
  show b * v / s._rShunt = b * (v / s._rShunt)
  rw [mul_div_assoc]

/-- Claim C10: a negative 16-bit value is serialized as the byte pair of
its two-complement representation, the value plus 65536, because each byte
is masked with 0xff after the arithmetic shift; writing -1 produces the
payload 0xFF, 0xFF, identical to writing 0xFFFF. -/
theorem writeRegister_negative_twos_complement (v : Int)
    (h1 : -32768 ≤ v) (h2 : v ≤ -1) :
    writeRegisterBytes v = ((v + 65536).toNat / 256, (v + 65536).toNat % 256)
    ∧ writeRegisterBytes v = writeRegisterBytes (v + 65536)
    ∧ writeRegisterBytes (-1) = (0xFF, 0xFF)
    ∧ writeRegisterBytes (-1) = writeRegisterBytes 0xFFFF := by
  have hm : v % 65536 = v + 65536 := by omega
  refine ⟨?_, ?_, by decide, by decide⟩
  · rw [writeRegisterBytes_eq_mod v, hm]
  · rw [writeRegisterBytes_eq_mod v, writeRegisterBytes_eq_mod (v + 65536)]
    have h3 : (v + 65536) % 65536 = v % 65536 := by omega
    rw [h3]

/-- Witness for C10 at the concrete value -1. -/
theorem writeRegister_negative_twos_complement_witness :
    writeRegisterBytes (-1) = (((-1 : Int) + 65536).toNat / 256, ((-1 : Int) + 65536).toNat % 256) :=
  (writeRegister_negative_twos_complement (-1) (by decide) (by decide)).1

end INA226Model
